import Mathlib

/-!
Verification of the Expense-Tracker statistics / budgeting core.

The repository's aggregation code (Statistics component, Budgeting component,
OpenRouter service, AiTools handlers) is shallowly embedded below.  Dollar
amounts are modelled as exact rationals (`ℚ`), calendar dates as days since
the Unix epoch (`ℤ`, matching the day-granularity of the `YYYY-MM-DD` strings
the app stores; `new Date(s)` for such strings yields UTC midnight, so the
date-level order coincides with the millisecond order used by the code).
The `date-fns` functions used by the component are external collaborators and
are modelled from their documented behaviour, with the proleptic-Gregorian
civil-calendar conversions written with Euclidean division.
-/

/-! ## Calendar model (external collaborators: `date-fns`, JS `Date`) -/

/-- Day of week of an epoch day, `0` = Sunday … `6` = Saturday
(epoch day 0 = 1970-01-01 was a Thursday, weekday 4); this is JS `getDay`. -/
def weekday (z : ℤ) : ℤ := (z + 4) % 7

/-- `date-fns` `startOfWeek` with the default `weekStartsOn = 0` (Sunday):
move back to the Sunday of the week containing `z`. -/
def startOfWeekD (z : ℤ) : ℤ := z - weekday z

/-- `date-fns` `endOfWeek` at day granularity: the Saturday of the week. -/
def endOfWeekD (z : ℤ) : ℤ := startOfWeekD z + 6

/-- `date-fns` `addWeeks`. -/
def addWeeksD (z n : ℤ) : ℤ := z + 7 * n

/-- `date-fns` `eachDayOfInterval`: every day from `s` to `e` inclusive. -/
def eachDayOfInterval (s e : ℤ) : List ℤ :=
  (List.range (e - s + 1).toNat).map (fun (i : ℕ) => s + (i : ℤ))

/-- Shifted ("March-based") year used by the civil-from-days conversion. -/
def civilShiftY (y : ℤ) (m : ℕ) : ℤ := if m ≤ 2 then y - 1 else y

/-- Day-of-(March-based)-year for civil month `m` (1–12) and day `d` (1-based). -/
def civilDoy (m d : ℕ) : ℤ :=
  (153 * (if m ≤ 2 then (m : ℤ) + 9 else (m : ℤ) - 3) + 2) / 5 + (d : ℤ) - 1

/-- Epoch-day number of the civil (proleptic Gregorian) date `y-m-d`. -/
def daysFromCivil (y : ℤ) (m d : ℕ) : ℤ :=
  365 * civilShiftY y m + (civilShiftY y m) / 4 - (civilShiftY y m) / 100 +
    (civilShiftY y m) / 400 + civilDoy m d - 719468

/-- Day-of-era (0 – 146096) of an epoch day within its 400-year era. -/
def doeOfDays (z : ℤ) : ℤ := (z + 719468) % 146097

/-- Era (400-year block) index of an epoch day. -/
def eraOfDays (z : ℤ) : ℤ := (z + 719468) / 146097

/-- Year-of-era (0 – 399) from a day-of-era. -/
def yoeOfDoe (doe : ℤ) : ℤ :=
  (doe - doe / 1460 + doe / 36524 - doe / 146096) / 365

/-- Day-of-year (0-based, March-based year) from a day-of-era. -/
def doyOfDoe (doe : ℤ) : ℤ :=
  doe - (365 * yoeOfDoe doe + (yoeOfDoe doe) / 4 - (yoeOfDoe doe) / 100)

/-- March-based month index (0 = March … 11 = February) from a day-of-era. -/
def mpOfDoe (doe : ℤ) : ℤ := (5 * doyOfDoe doe + 2) / 153

/-- Civil day-of-month (1-based) from a day-of-era. -/
def domOfDoe (doe : ℤ) : ℤ := doyOfDoe doe - (153 * mpOfDoe doe + 2) / 5 + 1

/-- Civil month (1 – 12) from a day-of-era. -/
def cmOfDoe (doe : ℤ) : ℤ :=
  if mpOfDoe doe < 10 then mpOfDoe doe + 3 else mpOfDoe doe - 9

/-- Civil month (1 – 12) of an epoch day; this is JS `getMonth() + 1`. -/
def monthOf (z : ℤ) : ℕ := (cmOfDoe (doeOfDays z)).toNat

/-- Civil day-of-month of an epoch day. -/
def dayOfMonth (z : ℤ) : ℕ := (domOfDoe (doeOfDays z)).toNat

/-- Civil year of an epoch day; this is JS `getFullYear()`. -/
def yearOf (z : ℤ) : ℤ :=
  yoeOfDoe (doeOfDays z) + 400 * eraOfDays z +
    (if cmOfDoe (doeOfDays z) ≤ 2 then 1 else 0)

/-- Gregorian leap-year test. -/
def isLeap (y : ℤ) : Bool := (y % 4 = 0 ∧ y % 100 ≠ 0) ∨ y % 400 = 0

/-- Length of civil month `m` (1 – 12) in year `y`. -/
def daysInMonth (y : ℤ) (m : ℕ) : ℕ :=
  [31, if isLeap y then 29 else 28, 31, 30, 31, 30, 31, 31, 30, 31, 30, 31].getD
    (m - 1) 31

/-- Months-since-year-0 index of the month containing an epoch day. -/
def monthIdxOfDay (z : ℤ) : ℤ := 12 * yearOf z + ((monthOf z : ℤ) - 1)

/-- First epoch day of the month with months-since-year-0 index `k`. -/
def firstDayOfIdx (k : ℤ) : ℤ := daysFromCivil (k / 12) ((k % 12).toNat + 1) 1

/-- `date-fns` `startOfMonth` at day granularity. -/
def startOfMonthD (z : ℤ) : ℤ := daysFromCivil (yearOf z) (monthOf z) 1

/-- `date-fns` `endOfMonth` at day granularity. -/
def endOfMonthD (z : ℤ) : ℤ :=
  daysFromCivil (yearOf z) (monthOf z) (daysInMonth (yearOf z) (monthOf z))

/-- `date-fns` `addMonths`: keep the day of month, clamped to the target
month's length. -/
def addMonthsD (z n : ℤ) : ℤ :=
  daysFromCivil ((monthIdxOfDay z + n) / 12)
    (((monthIdxOfDay z + n) % 12).toNat + 1)
    (min (dayOfMonth z)
      (daysInMonth ((monthIdxOfDay z + n) / 12) (((monthIdxOfDay z + n) % 12).toNat + 1)))

/-- `date-fns` `subMonths`. -/
def subMonthsD (z : ℤ) (n : ℤ) : ℤ := addMonthsD z (-n)

/-- `date-fns` `addYears` (clamps Feb 29 to Feb 28, like `addMonths (12*n)`). -/
def addYearsD (z n : ℤ) : ℤ := addMonthsD z (12 * n)

/-- `date-fns` `startOfYear` at day granularity. -/
def startOfYearD (z : ℤ) : ℤ := daysFromCivil (yearOf z) 1 1

/-- `date-fns` `endOfYear` at day granularity. -/
def endOfYearD (z : ℤ) : ℤ := daysFromCivil (yearOf z) 12 31

/-- `date-fns` `eachMonthOfInterval`: the first day of every month between
`s` and `e` inclusive. -/
def eachMonthOfInterval (s e : ℤ) : List ℤ :=
  (List.range (monthIdxOfDay e - monthIdxOfDay s + 1).toNat).map
    (fun (i : ℕ) => firstDayOfIdx (monthIdxOfDay s + (i : ℤ)))

/-- Abbreviated en-US weekday names, indexed by `weekday` (0 = Sunday). -/
def dayNames : List String := ["Sun", "Mon", "Tue", "Wed", "Thu", "Fri", "Sat"]

/-- Abbreviated en-US month names, indexed by civil month minus 1. -/
def monthNames : List String :=
  ["Jan", "Feb", "Mar", "Apr", "May", "Jun", "Jul", "Aug", "Sep", "Oct", "Nov", "Dec"]

/-- `date-fns` `format(date, 'EEE')` (en-US). -/
def formatEEE (z : ℤ) : String := dayNames.getD (weekday z).toNat "???"

/-- `date-fns` `format(date, 'MMM')` (en-US). -/
def formatMMM (z : ℤ) : String := monthNames.getD (monthOf z - 1) "???"

/-! ## Data model (`src/types`, spec §3) -/

/-- Transaction type tag (`'income' | 'expense' | 'investment'`). -/
inductive TxType where
  | income
  | expense
  | investment
deriving DecidableEq, Repr

/-- A transaction record.  `date` is the epoch-day number of the stored
calendar date, `amount` the signed decimal amount as an exact rational. -/
structure Transaction where
  id : String
  date : ℤ
  amount : ℚ
  category : String
  type : TxType
  note : Option String
deriving DecidableEq, Repr

/-! ## Statistics component (`src/unnamed/part_001`) -/

/-- Date comparator sort of the `sortedTransactions` memo:
`[...transactions].sort((a, b) => dateOf a - dateOf b)` — an ascending stable
sort of a spread copy of the caller's array. -/
def sortedTransactions (transactions : List Transaction) : List Transaction :=
  List.insertionSort (fun a b => a.date ≤ b.date) transactions

/-- One point of the running-balance series (`{ date, balance }`). -/
structure BalancePoint where
  date : ℤ
  balance : ℚ
deriving DecidableEq, Repr

/-- Contribution of one transaction to the `wealthBalance` accumulator
(signed amount for income and expense, nothing otherwise). -/
def wealthStep (tx : Transaction) : ℚ :=
  if tx.type = TxType.income ∨ tx.type = TxType.expense then tx.amount else 0

/-- Contribution of one transaction to the `investmentBalance` accumulator
(absolute amount for investment, nothing otherwise). -/
def investStep (tx : Transaction) : ℚ :=
  if tx.type = TxType.investment then |tx.amount| else 0

/-- The `forEach` loop body of `netAssetData`, carrying the two accumulators:
every transaction appends one point to each series. -/
def netAssetGo (w v : ℚ) : List Transaction → List BalancePoint × List BalancePoint
  | [] => ([], [])
  | tx :: rest =>
    let w2 := w + wealthStep tx
    let v2 := v + investStep tx
    let tail := netAssetGo w2 v2 rest
    (⟨tx.date, w2⟩ :: tail.1, ⟨tx.date, v2⟩ :: tail.2)

/-- `netAssetData` memo: wealth and investment running-balance series, built
from the date-sorted transactions with both accumulators starting at 0. -/
def netAssetData (txs : List Transaction) : List BalancePoint × List BalancePoint :=
  netAssetGo 0 0 txs

/-- One entry of the `spendingChartData` map.  The JS object carries the
bucket label under `name`, one dynamic numeric key per category, and a
numeric `total` key, all read with an `(x || 0)` default; following the
spec's `AggregatedSeries` shape these are modelled as a label, an ordered
default-zero category map, and a total that starts at 0. -/
structure ChartEntry where
  name : String
  cats : List (String × ℚ)
  total : ℚ
deriving DecidableEq, Repr

/-- Zero-initialized bucket entry (`{ name: label }`). -/
def zeroEntry (label : String) : ChartEntry := ⟨label, [], 0⟩

/-- JS `Map.set`: replace the value at an existing key in place, otherwise
append a new binding at the end. -/
def mapSet (m : List ChartEntry) (e : ChartEntry) : List ChartEntry :=
  if m.any (fun x => x.name = e.name) then
    m.map (fun x => if x.name = e.name then e else x)
  else m ++ [e]

/-- `entry[tx.category] = (entry[tx.category] || 0) + a`: bump the
category's slot in the per-entry category map (JS object keys are unique,
so the first matching slot is the slot), creating the key if absent. -/
def addCat : List (String × ℚ) → String → ℚ → List (String × ℚ)
  | [], c, a => [(c, a)]
  | p :: ps, c, a => if p.1 = c then (p.1, p.2 + a) :: ps else p :: addCat ps c a

/-- Mutation of one found bucket entry by one transaction's absolute amount. -/
def bumpEntry (e : ChartEntry) (c : String) (a : ℚ) : ChartEntry :=
  { e with cats := addCat e.cats c a, total := e.total + a }

/-- Loop body of the aggregation `forEach`: look the transaction's bucket up
by label and mutate it; a label with no pre-registered entry is skipped
(`if (entry) { ... }`). -/
def applyTx (m : List ChartEntry) (label c : String) (a : ℚ) : List ChartEntry :=
  if m.any (fun x => x.name = label) then
    m.map (fun x => if x.name = label then bumpEntry x c a else x)
  else m

/-- The periods of the `'W' | 'M' | '6M' | 'Y'` union. -/
inductive Period where
  | W
  | M
  | SixM
  | Y
deriving DecidableEq, Repr

/-- Interval start of the selected period, from `spendingChartData`'s
`switch`. -/
def spendingStart (now : ℤ) (p : Period) (off : ℤ) : ℤ :=
  match p with
  | Period.W => startOfWeekD (addWeeksD now off)
  | Period.M => 0
  | Period.SixM => startOfMonthD (subMonthsD (addMonthsD now (off * 6)) 5)
  | Period.Y => startOfYearD (addYearsD now off)

/-- Interval end of the selected period. -/
def spendingEnd (now : ℤ) (p : Period) (off : ℤ) : ℤ :=
  match p with
  | Period.W => endOfWeekD (addWeeksD now off)
  | Period.M => 0
  | Period.SixM => endOfMonthD (addMonthsD now (off * 6))
  | Period.Y => endOfYearD (addYearsD now off)

/-- The `dataPoints` axis of the selected period (days for Week, month
starts for SixMonth/Year; the Month view returns no chart series). -/
def spendingDataPoints (now : ℤ) (p : Period) (off : ℤ) : List ℤ :=
  match p with
  | Period.W => eachDayOfInterval (spendingStart now p off) (spendingEnd now p off)
  | Period.M => []
  | Period.SixM => eachMonthOfInterval (spendingStart now p off) (spendingEnd now p off)
  | Period.Y => eachMonthOfInterval (spendingStart now p off) (spendingEnd now p off)

/-- The `formatLabel` function of the selected period (`'EEE'` for Week,
`'MMM'` for SixMonth/Year). -/
def spendingFormatLabel (p : Period) : ℤ → String :=
  match p with
  | Period.W => formatEEE
  | _ => formatMMM

/-- Bucket labels of the selected period: `dataPoints.map(formatLabel)`. -/
def bucketLabels (now : ℤ) (p : Period) (off : ℤ) : List String :=
  (spendingDataPoints now p off).map (spendingFormatLabel p)

/-- The `relevantTxs` filter: expense transactions whose date lies in the
selected interval (the sorted list is filtered, as in the memo). -/
def relevantTxs (now : ℤ) (p : Period) (off : ℤ) (txs : List Transaction) :
    List Transaction :=
  (sortedTransactions txs).filter (fun tx =>
    decide (spendingStart now p off ≤ tx.date) &&
    decide (tx.date ≤ spendingEnd now p off) &&
    decide (tx.type = TxType.expense))

/-- Seeding loop: `dataPoints.forEach(point => dataMap.set(formatLabel point, { name }))`. -/
def seedEntries (labels : List String) : List ChartEntry :=
  labels.foldl (fun m l => mapSet m (zeroEntry l)) []

/-- The `spendingChartData` memo.  The `'M'` period returns an empty series
(`default: return []`); otherwise the seeded bucket map is folded over the
relevant transactions and returned in insertion order
(`Array.from(dataMap.values())`). -/
def spendingChartData (now : ℤ) (p : Period) (off : ℤ) (txs : List Transaction) :
    List ChartEntry :=
  match p with
  | Period.M => []
  | _ =>
    (relevantTxs now p off txs).foldl
      (fun m tx => applyTx m (spendingFormatLabel p tx.date) tx.category |tx.amount|)
      (seedEntries (bucketLabels now p off))

/-- One entry of the `flowOverTimeData` monthly map. -/
structure FlowEntry where
  name : String
  income : ℚ
  expense : ℚ
  investment : ℚ
deriving DecidableEq, Repr

/-- Zero-initialized monthly flow entry. -/
def zeroFlow (label : String) : FlowEntry := ⟨label, 0, 0, 0⟩

/-- JS `Map.set` for the monthly flow map. -/
def flowSet (m : List FlowEntry) (e : FlowEntry) : List FlowEntry :=
  if m.any (fun x => x.name = e.name) then
    m.map (fun x => if x.name = e.name then e else x)
  else m ++ [e]

/-- Mutation of one monthly entry by one transaction, by type:
income adds the raw amount, expense and investment the absolute amount. -/
def bumpFlow (e : FlowEntry) (tx : Transaction) : FlowEntry :=
  match tx.type with
  | TxType.income => { e with income := e.income + tx.amount }
  | TxType.expense => { e with expense := e.expense + |tx.amount| }
  | TxType.investment => { e with investment := e.investment + |tx.amount| }

/-- Loop body of the flow aggregation: look the transaction's month entry up
by its `'MMM'` name and mutate it; a missing entry is skipped. -/
def applyFlowTx (m : List FlowEntry) (tx : Transaction) : List FlowEntry :=
  if m.any (fun x => x.name = formatMMM tx.date) then
    m.map (fun x => if x.name = formatMMM tx.date then bumpFlow x tx else x)
  else m

/-- Seeded monthly map of the flow view: one zero entry per month of the
current calendar year (`eachMonthOfInterval(startOfYear(now), endOfYear(now))`). -/
def flowSeeds (now : ℤ) : List FlowEntry :=
  (eachMonthOfInterval (startOfYearD now) (endOfYearD now)).foldl
    (fun m d => flowSet m (zeroFlow (formatMMM d))) []

/-- The `flowOverTimeData` memo: the seeded monthly map folded over the
date-sorted transactions.  Note the loop applies every transaction whose
month name has an entry — there is no current-year filter in the source. -/
def flowOverTimeData (now : ℤ) (txs : List Transaction) : List FlowEntry :=
  (sortedTransactions txs).foldl applyFlowTx (flowSeeds now)

/-! ## Budgeting component (`src/unnamed/part_000`) -/

/-- JS `(mapping[cat] || 0)` read of a category-keyed numeric object:
the stored value, or 0 for a missing key (a stored 0 also reads as 0). -/
def lookup0 (m : List (String × ℚ)) (k : String) : ℚ :=
  ((m.find? (fun p => p.1 = k)).map (fun p => p.2)).getD 0

/-- `totalTracked = categories.reduce((sum, cat) => sum + (spendingByCategory[cat] || 0), 0)`. -/
def totalTracked (categories : List String) (spendingByCategory : List (String × ℚ)) : ℚ :=
  categories.foldl (fun sum cat => sum + lookup0 spendingByCategory cat) 0

/-- `totalBudget = categories.reduce((sum, cat) => sum + (categoryBudgets[cat] || 0), 0)`. -/
def totalBudget (categories : List String) (categoryBudgets : List (String × ℚ)) : ℚ :=
  categories.foldl (fun sum cat => sum + lookup0 categoryBudgets cat) 0

/-- `totalRemaining = totalBudget - Math.abs(totalTracked)`. -/
def totalRemaining (categories : List String)
    (categoryBudgets spendingByCategory : List (String × ℚ)) : ℚ :=
  totalBudget categories categoryBudgets - |totalTracked categories spendingByCategory|

/-- The over-budget comparison `Math.abs(totalTracked) > totalBudget` used to
color the "Tracked vs Budget" footer. -/
def overBudget (categories : List String)
    (categoryBudgets spendingByCategory : List (String × ℚ)) : Bool :=
  |totalTracked categories spendingByCategory| > totalBudget categories categoryBudgets

/-- Per-row `percent = budget > 0 ? (Math.abs(tracked) / budget) * 100 : 0`. -/
def percentUsed (tracked budget : ℚ) : ℚ :=
  if budget > 0 then |tracked| / budget * 100 else 0

/-! ## Color-shade generator (`generateShades`, `src/unnamed/part_001`) -/

/-- Value of a hexadecimal digit character, if it is one. -/
def hexDigitVal (c : Char) : Option ℕ :=
  if '0' ≤ c ∧ c ≤ '9' then some (c.toNat - 48)
  else if 'a' ≤ c ∧ c ≤ 'f' then some (c.toNat - 87)
  else if 'A' ≤ c ∧ c ≤ 'F' then some (c.toNat - 55)
  else none

/-- Accumulating loop of `parseInt(s, 16)`: consume hex digits until a
non-digit character. -/
def parseIntHexGo : List Char → ℕ → ℕ
  | [], acc => acc
  | c :: cs, acc =>
    match hexDigitVal c with
    | some d => parseIntHexGo cs (16 * acc + d)
    | none => acc

/-- JS `parseInt(s, 16)`: the maximal hex-digit prefix, `none` (= NaN) when
the string starts with no hex digit. -/
def parseIntHex (cs : List Char) : Option ℕ :=
  match cs with
  | [] => none
  | c :: cs =>
    match hexDigitVal c with
    | some d => some (parseIntHexGo cs d)
    | none => none

/-- One generated `rgba(r, g, b, a)` value; `none` channels are JS `NaN`
from a failed hex parse. -/
structure Shade where
  r : Option ℕ
  g : Option ℕ
  b : Option ℕ
  a : ℚ
deriving DecidableEq, Repr

/-- The `#`-stripped hex string of `generateShades`
(`hexColor.startsWith('#') ? hexColor.substring(1) : hexColor`). -/
def stripHash (hexColor : String) : List Char :=
  if hexColor.toList.head? = some '#' then hexColor.toList.drop 1 else hexColor.toList

/-- Red channel: `parseInt(color.substring(0, 2), 16)`. -/
def shadeR (hexColor : String) : Option ℕ := parseIntHex ((stripHash hexColor).take 2)

/-- Green channel: `parseInt(color.substring(2, 4), 16)`. -/
def shadeG (hexColor : String) : Option ℕ :=
  parseIntHex (((stripHash hexColor).drop 2).take 2)

/-- Blue channel: `parseInt(color.substring(4, 6), 16)`. -/
def shadeB (hexColor : String) : Option ℕ :=
  parseIntHex (((stripHash hexColor).drop 4).take 2)

/-- `generateShades(hexColor, count)`: `count` shades of the decoded RGB
triple, shade `i` with alpha `Math.max(0.2, 1 - i * 0.1)`. -/
def generateShades (hexColor : String) (count : ℕ) : List Shade :=
  (List.range count).map (fun (i : ℕ) =>
    ⟨shadeR hexColor, shadeG hexColor, shadeB hexColor,
      max (2/10 : ℚ) (1 - (i : ℚ) / 10)⟩)

/-! ## OpenRouter service (`src/unnamed/part_002`) -/

/-- A chat message (`OpenRouterMessage`). -/
structure OpenRouterMessage where
  role : String
  content : String
deriving DecidableEq, Repr

/-- The request payload (`OpenRouterRequest`). -/
structure OpenRouterRequest where
  model : String
  messages : List OpenRouterMessage
  max_tokens : ℕ
  temperature : ℚ
  stream : Bool
deriving DecidableEq, Repr

/-- One choice of a chat-completion response (`choices[i].message.content`). -/
structure ORChoice where
  content : String
deriving DecidableEq, Repr

/-- The response body (`OpenRouterResponse`). -/
structure OpenRouterResponse where
  choices : List ORChoice
  usage : Option ℕ
deriving DecidableEq, Repr

/-- Options object of `callOpenRouter` (all fields optional). -/
structure CallOptions where
  model : Option String
  max_tokens : Option ℕ
  temperature : Option ℚ
  stream : Option Bool
deriving DecidableEq, Repr

/-- Outcome of the single `fetch`: HTTP status line plus the parsed JSON
body when the text is valid JSON. -/
structure HttpReply where
  ok : Bool
  status : ℕ
  bodyText : String
  json : Option OpenRouterResponse
deriving DecidableEq, Repr

/-- JS `x || d` on an optional string (the empty string is falsy). -/
def jsOrStr (x : Option String) (d : String) : String :=
  match x with
  | some s => if s = "" then d else s
  | none => d

/-- JS `x || d` on an optional number (0 is falsy). -/
def jsOrNat (x : Option ℕ) (d : ℕ) : ℕ :=
  match x with
  | some v => if v = 0 then d else v
  | none => d

/-- JS `x || d` on an optional rational (0 is falsy). -/
def jsOrRat (x : Option ℚ) (d : ℚ) : ℚ :=
  match x with
  | some v => if v = 0 then d else v
  | none => d

/-- JS `x || false` on an optional boolean. -/
def jsOrBool (x : Option Bool) : Bool :=
  match x with
  | some b => b
  | none => false

/-- The payload built by `callOpenRouter` from its arguments and defaults. -/
def mkPayload (messages : List OpenRouterMessage) (options : CallOptions) :
    OpenRouterRequest :=
  ⟨jsOrStr options.model "amazon/nova-2-lite-v1:free", messages,
    jsOrNat options.max_tokens 4000, jsOrRat options.temperature (7/10),
    jsOrBool options.stream⟩

/-- `callOpenRouter`: throw when the configured API key is missing (or the
empty string, which is falsy), otherwise perform one `fetch` through the
network oracle `net`, throw on a non-ok status or an unparseable JSON body,
and return the parsed response.  The `catch` clause only logs and rethrows. -/
def callOpenRouter (apiKey : Option String)
    (net : OpenRouterRequest → HttpReply)
    (messages : List OpenRouterMessage) (options : CallOptions) :
    Except String OpenRouterResponse :=
  match apiKey with
  | none => Except.error "OpenRouter API key is not configured"
  | some key =>
    if key = "" then Except.error "OpenRouter API key is not configured"
    else
      let reply := net (mkPayload messages options)
      if reply.ok = false then
        Except.error ("OpenRouter API error: " ++ toString reply.status ++ " - " ++
          reply.bodyText)
      else
        match reply.json with
        | some body => Except.ok body
        | none => Except.error "Unexpected end of JSON input"

/-- `analyzeTransactionsWithAI`: one chat-completion call, then
`response.choices[0].message.content` (reading a missing first choice throws,
modelled as an error). -/
def analyzeTransactionsWithAI (apiKey : Option String)
    (net : OpenRouterRequest → HttpReply)
    (transactionsText : String) : Except String String :=
  match callOpenRouter apiKey net
      [⟨"system", "You are a helpful financial analyst."⟩,
       ⟨"user", "Analyze the following transaction data and provide insights: " ++
         transactionsText⟩] ⟨none, none, none, none⟩ with
  | Except.error e => Except.error e
  | Except.ok r =>
    match r.choices.head? with
    | some c => Except.ok c.content
    | none => Except.error "TypeError: cannot read properties of undefined"

/-- `parseStatementWithAI`: one chat-completion call with the extraction
prompt, then `response.choices[0].message.content`. -/
def parseStatementWithAI (apiKey : Option String)
    (net : OpenRouterRequest → HttpReply)
    (statementText : String) : Except String String :=
  match callOpenRouter apiKey net
      [⟨"system", "You are a data extraction specialist. Return only JSON."⟩,
       ⟨"user", "Parse the following bank statement and extract transaction information. " ++
         statementText⟩] ⟨none, none, none, none⟩ with
  | Except.error e => Except.error e
  | Except.ok r =>
    match r.choices.head? with
    | some c => Except.ok c.content
    | none => Except.error "TypeError: cannot read properties of undefined"

/-! ## AiTools component (`src/components/AiTools.tsx`) -/

/-- One AI-extracted statement row (`FoundItem`). -/
structure FoundItem where
  id : String
  date : String
  amount : ℚ
  category : String
  note : String
  type : String
  source : String
deriving DecidableEq, Repr

/-- Raw transaction object of the parsed statement JSON. -/
structure RawStatementTx where
  date : String
  amount : ℚ
  category : String
  note : String
  type : String
deriving DecidableEq, Repr

/-- The statement JSON object; `transactions` is `none` when the key is
absent or not an array (`parsed.transactions && Array.isArray(...)`). -/
structure ParsedStatement where
  transactions : Option (List RawStatementTx)
deriving DecidableEq, Repr

/-- The component state touched by the three AI handlers. -/
structure AiToolsState where
  aiQuery : String
  isProcessing : Bool
  aiInsights : String
  statementText : String
  foundTransactions : List FoundItem
  notifications : List String
deriving DecidableEq, Repr

/-- `onShowNotification(message)`. -/
def notifyUi (st : AiToolsState) (msg : String) : AiToolsState :=
  { st with notifications := st.notifications ++ [msg] }

/-- `handleAnalyzeTransactions`: guard on an empty transaction list, set the
processing flag, await the analysis (outcome supplied by the oracle
`aiResult`), store insights or a failure notification, and clear the flag
in `finally`. -/
def handleAnalyzeTransactions (transactions : List Transaction)
    (aiResult : Except String String) (st : AiToolsState) : AiToolsState :=
  if transactions.length = 0 then notifyUi st "No transactions to analyze"
  else
    let st1 := { st with isProcessing := true }
    let st2 :=
      match aiResult with
      | Except.ok insights =>
        notifyUi { st1 with aiInsights := insights } "Analysis complete"
      | Except.error _ => notifyUi st1 "AI analysis failed"
    { st2 with isProcessing := false }

/-- The `map` building `FoundItem`s from the parsed statement transactions,
with ids `` `ai-${Date.now()}-${index}` ``. -/
def mkFoundItems (nowMs : ℕ) (txs : List RawStatementTx) : List FoundItem :=
  txs.enum.map (fun p =>
    ⟨"ai-" ++ toString nowMs ++ "-" ++ toString p.1,
      p.2.date, p.2.amount, p.2.category, p.2.note, p.2.type, "PDF file"⟩)

/-- `handleParseStatement`: guard on blank statement text, set the
processing flag, await the AI call, `JSON.parse` the reply (outcome
supplied by the oracle `jsonParse`; a parse throw lands in `catch`), store
the found items when the JSON carries a transaction array, and clear the
flag in `finally`. -/
def handleParseStatement (apiResult : Except String String)
    (jsonParse : String → Option ParsedStatement) (nowMs : ℕ)
    (st : AiToolsState) : AiToolsState :=
  if st.statementText.trim = "" then notifyUi st "Please paste statement text"
  else
    let st1 := { st with isProcessing := true }
    let st2 :=
      match apiResult with
      | Except.error _ => notifyUi st1 "Failed to parse statement"
      | Except.ok response =>
        match jsonParse response with
        | none => notifyUi st1 "Failed to parse statement"
        | some parsed =>
          match parsed.transactions with
          | none => st1
          | some txs =>
            let foundItems := mkFoundItems nowMs txs
            { notifyUi { st1 with foundTransactions := foundItems }
                ("Found " ++ toString foundItems.length ++ " transactions")
              with statementText := "" }
    { st2 with isProcessing := false }

/-- `handleAskQuestion`: guard on a blank query, set the processing flag,
call `callOpenRouter` with the advisor messages, read
`choices[0].message.content` (a missing first choice throws into `catch`),
and clear the flag in `finally`. -/
def handleAskQuestion (apiKey : Option String)
    (net : OpenRouterRequest → HttpReply) (transactions : List Transaction)
    (st : AiToolsState) : AiToolsState :=
  if st.aiQuery.trim = "" then notifyUi st "Please enter a question"
  else
    let st1 := { st with isProcessing := true }
    let result :=
      callOpenRouter apiKey net
        [⟨"system", "You are a financial advisor helping with expense tracking."⟩,
         ⟨"user", "Context: I have " ++ toString transactions.length ++
           " transactions in my expense tracker. " ++ st.aiQuery⟩]
        ⟨none, none, none, none⟩
    let st2 :=
      match result with
      | Except.error _ => notifyUi st1 "Failed to get answer"
      | Except.ok r =>
        match r.choices.head? with
        | none => notifyUi st1 "Failed to get answer"
        | some c =>
          { notifyUi { st1 with aiInsights := c.content } "Answer received"
            with aiQuery := "" }
    { st2 with isProcessing := false }

/-! ## The Statistics render pass as a whole (for the frame property) -/

/-- All chart series the Statistics component derives in one render, paired
with the caller's transaction array after the computation.  The date sort
runs on a spread copy (`[...transactions].sort(...)`), so the caller's
array is returned as it was received. -/
def runStatistics (now : ℤ) (p : Period) (off : ℤ) (transactions : List Transaction) :
    ((List BalancePoint × List BalancePoint) × List ChartEntry × List FlowEntry) ×
      List Transaction :=
  ((netAssetData (sortedTransactions transactions),
    spendingChartData now p off transactions,
    flowOverTimeData now transactions),
   transactions)

/-- Sum of the per-category totals stored in a bucket entry. -/
def catSum (cats : List (String × ℚ)) : ℚ := (cats.map (fun p => p.2)).sum

/-- The effect of the aggregation fold on one bucket entry: each relevant
transaction whose bucket label is the entry's name bumps the entry. -/
def entryFoldFn (q : Period) (relevant : List Transaction) (e0 : ChartEntry) :
    ChartEntry :=
  relevant.foldl (fun e0 tx =>
    if e0.name = spendingFormatLabel q tx.date then
      bumpEntry e0 tx.category |tx.amount| else e0) e0

/-- The effect of the flow fold on one monthly entry: each transaction
whose month name is the entry's name bumps the matching field. -/
def flowFoldFn (txs : List Transaction) (e0 : FlowEntry) : FlowEntry :=
  txs.foldl (fun e0 tx =>
    if e0.name = formatMMM tx.date then bumpFlow e0 tx else e0) e0

/-- Income contribution of a transaction list to the monthly entry named
`n`: raw amounts of income transactions whose `'MMM'` month name is `n`. -/
def incContrib (txs : List Transaction) (n : String) : ℚ :=
  ((txs.filter (fun tx => decide (formatMMM tx.date = n) &&
    decide (tx.type = TxType.income))).map (fun tx => tx.amount)).sum

/-- Expense contribution: absolute amounts of matching expense transactions. -/
def expContrib (txs : List Transaction) (n : String) : ℚ :=
  ((txs.filter (fun tx => decide (formatMMM tx.date = n) &&
    decide (tx.type = TxType.expense))).map (fun tx => |tx.amount|)).sum

/-- Investment contribution: absolute amounts of matching investment
transactions. -/
def invContrib (txs : List Transaction) (n : String) : ℚ :=
  ((txs.filter (fun tx => decide (formatMMM tx.date = n) &&
    decide (tx.type = TxType.investment))).map (fun tx => |tx.amount|)).sum

/-! ## Calendar lemmas -/

set_option maxRecDepth 10000 in
/-- Over one 400-year era, the year-of-era extraction inverts the
day-of-era computation at the day-of-year offsets used below. -/
theorem yoeRecoverBounded : ∀ i : Fin 400,
    ∀ e ∈ ([0, 31, 61, 92, 122, 153, 184, 214, 245, 275, 305, 306, 337] : List ℤ),
      yoeOfDoe (365 * (i : ℤ) + (i : ℤ) / 4 - (i : ℤ) / 100 + e) = (i : ℤ) := by
  decide

/-- Instance form of `yoeRecoverBounded` for an integer year-of-era. -/
theorem yoeRecoverOf (e : ℤ)
    (he : e ∈ ([0, 31, 61, 92, 122, 153, 184, 214, 245, 275, 305, 306, 337] : List ℤ))
    (yoe : ℤ) (h1 : 0 ≤ yoe) (h2 : yoe < 400) :
    yoeOfDoe (365 * yoe + yoe / 4 - yoe / 100 + e) = yoe := by
  have h := yoeRecoverBounded ⟨yoe.toNat, by omega⟩ e he
  have hc : ((⟨yoe.toNat, by omega⟩ : Fin 400) : ℤ) = yoe := by
    simp [Int.toNat_of_nonneg h1]
  rw [hc] at h
  exact h

/-- `civilFromDays ∘ daysFromCivil` roundtrip, staged through the era /
year-of-era / day-of-year decomposition; the per-month constants are
supplied as hypotheses. -/
theorem civilParts (y : ℤ) (m d : ℕ) (mp0 e : ℤ)
    (he : civilDoy m d = e)
    (hmp : (5 * e + 2) / 153 = mp0)
    (hdomv : e - (153 * mp0 + 2) / 5 + 1 = (d : ℤ))
    (hcm : (if mp0 < 10 then mp0 + 3 else mp0 - 9) = (m : ℤ))
    (he0 : 0 ≤ e) (he337 : e ≤ 337)
    (hrec : ∀ yoe : ℤ, 0 ≤ yoe → yoe < 400 →
      yoeOfDoe (365 * yoe + yoe / 4 - yoe / 100 + e) = yoe) :
    monthOf (daysFromCivil y m d) = m ∧ yearOf (daysFromCivil y m d) = y ∧
      dayOfMonth (daysFromCivil y m d) = d := by
  obtain ⟨era, yoe, hsplit, hy0, hy4⟩ :
      ∃ era yoe, civilShiftY y m = 400 * era + yoe ∧ 0 ≤ yoe ∧ yoe < 400 :=
    ⟨civilShiftY y m / 400, civilShiftY y m % 400, by omega, by omega, by omega⟩
  have hz : daysFromCivil y m d + 719468 =
      365 * civilShiftY y m + (civilShiftY y m) / 4 - (civilShiftY y m) / 100 +
        (civilShiftY y m) / 400 + e := by
    rw [daysFromCivil, he]; ring
  have hX : daysFromCivil y m d + 719468 =
      146097 * era + (365 * yoe + yoe / 4 - yoe / 100 + e) := by omega
  have hdoe : doeOfDays (daysFromCivil y m d) = 365 * yoe + yoe / 4 - yoe / 100 + e := by
    rw [doeOfDays]; omega
  have hera : eraOfDays (daysFromCivil y m d) = era := by
    rw [eraOfDays]; omega
  have hyoe : yoeOfDoe (doeOfDays (daysFromCivil y m d)) = yoe := by
    rw [hdoe]; exact hrec yoe hy0 hy4
  have hdoy : doyOfDoe (doeOfDays (daysFromCivil y m d)) = e := by
    rw [doyOfDoe, hyoe, hdoe]; ring
  have hmp2 : mpOfDoe (doeOfDays (daysFromCivil y m d)) = mp0 := by
    rw [mpOfDoe, hdoy, hmp]
  have hcm2 : cmOfDoe (doeOfDays (daysFromCivil y m d)) = (m : ℤ) := by
    rw [cmOfDoe, hmp2]; exact hcm
  have hdom2 : domOfDoe (doeOfDays (daysFromCivil y m d)) = (d : ℤ) := by
    rw [domOfDoe, hdoy, hmp2]; exact hdomv
  refine ⟨?_, ?_, ?_⟩
  · rw [monthOf, hcm2]; exact Int.toNat_natCast m
  · rw [yearOf, hyoe, hera, hcm2]
    by_cases hm2 : m ≤ 2
    · have hsh : civilShiftY y m = y - 1 := by rw [civilShiftY, if_pos hm2]
      rw [if_pos (by exact_mod_cast hm2)]
      omega
    · have hsh : civilShiftY y m = y := by rw [civilShiftY, if_neg hm2]
      rw [if_neg (by exact_mod_cast hm2)]
      omega
  · rw [dayOfMonth, hdom2]; exact Int.toNat_natCast d

/-- Month and year recovered from the first day of any civil month. -/
theorem monthYearFirst (y : ℤ) (m : ℕ) (h1 : 1 ≤ m) (h12 : m ≤ 12) :
    monthOf (daysFromCivil y m 1) = m ∧ yearOf (daysFromCivil y m 1) = y := by
  interval_cases m
  · exact ⟨(civilParts y 1 1 10 306 (by decide) (by decide) (by decide) (by decide)
      (by decide) (by decide) (yoeRecoverOf 306 (by decide))).1,
      (civilParts y 1 1 10 306 (by decide) (by decide) (by decide) (by decide)
      (by decide) (by decide) (yoeRecoverOf 306 (by decide))).2.1⟩
  · exact ⟨(civilParts y 2 1 11 337 (by decide) (by decide) (by decide) (by decide)
      (by decide) (by decide) (yoeRecoverOf 337 (by decide))).1,
      (civilParts y 2 1 11 337 (by decide) (by decide) (by decide) (by decide)
      (by decide) (by decide) (yoeRecoverOf 337 (by decide))).2.1⟩
  · exact ⟨(civilParts y 3 1 0 0 (by decide) (by decide) (by decide) (by decide)
      (by decide) (by decide) (yoeRecoverOf 0 (by decide))).1,
      (civilParts y 3 1 0 0 (by decide) (by decide) (by decide) (by decide)
      (by decide) (by decide) (yoeRecoverOf 0 (by decide))).2.1⟩
  · exact ⟨(civilParts y 4 1 1 31 (by decide) (by decide) (by decide) (by decide)
      (by decide) (by decide) (yoeRecoverOf 31 (by decide))).1,
      (civilParts y 4 1 1 31 (by decide) (by decide) (by decide) (by decide)
      (by decide) (by decide) (yoeRecoverOf 31 (by decide))).2.1⟩
  · exact ⟨(civilParts y 5 1 2 61 (by decide) (by decide) (by decide) (by decide)
      (by decide) (by decide) (yoeRecoverOf 61 (by decide))).1,
      (civilParts y 5 1 2 61 (by decide) (by decide) (by decide) (by decide)
      (by decide) (by decide) (yoeRecoverOf 61 (by decide))).2.1⟩
  · exact ⟨(civilParts y 6 1 3 92 (by decide) (by decide) (by decide) (by decide)
      (by decide) (by decide) (yoeRecoverOf 92 (by decide))).1,
      (civilParts y 6 1 3 92 (by decide) (by decide) (by decide) (by decide)
      (by decide) (by decide) (yoeRecoverOf 92 (by decide))).2.1⟩
  · exact ⟨(civilParts y 7 1 4 122 (by decide) (by decide) (by decide) (by decide)
      (by decide) (by decide) (yoeRecoverOf 122 (by decide))).1,
      (civilParts y 7 1 4 122 (by decide) (by decide) (by decide) (by decide)
      (by decide) (by decide) (yoeRecoverOf 122 (by decide))).2.1⟩
  · exact ⟨(civilParts y 8 1 5 153 (by decide) (by decide) (by decide) (by decide)
      (by decide) (by decide) (yoeRecoverOf 153 (by decide))).1,
      (civilParts y 8 1 5 153 (by decide) (by decide) (by decide) (by decide)
      (by decide) (by decide) (yoeRecoverOf 153 (by decide))).2.1⟩
  · exact ⟨(civilParts y 9 1 6 184 (by decide) (by decide) (by decide) (by decide)
      (by decide) (by decide) (yoeRecoverOf 184 (by decide))).1,
      (civilParts y 9 1 6 184 (by decide) (by decide) (by decide) (by decide)
      (by decide) (by decide) (yoeRecoverOf 184 (by decide))).2.1⟩
  · exact ⟨(civilParts y 10 1 7 214 (by decide) (by decide) (by decide) (by decide)
      (by decide) (by decide) (yoeRecoverOf 214 (by decide))).1,
      (civilParts y 10 1 7 214 (by decide) (by decide) (by decide) (by decide)
      (by decide) (by decide) (yoeRecoverOf 214 (by decide))).2.1⟩
  · exact ⟨(civilParts y 11 1 8 245 (by decide) (by decide) (by decide) (by decide)
      (by decide) (by decide) (yoeRecoverOf 245 (by decide))).1,
      (civilParts y 11 1 8 245 (by decide) (by decide) (by decide) (by decide)
      (by decide) (by decide) (yoeRecoverOf 245 (by decide))).2.1⟩
  · exact ⟨(civilParts y 12 1 9 275 (by decide) (by decide) (by decide) (by decide)
      (by decide) (by decide) (yoeRecoverOf 275 (by decide))).1,
      (civilParts y 12 1 9 275 (by decide) (by decide) (by decide) (by decide)
      (by decide) (by decide) (yoeRecoverOf 275 (by decide))).2.1⟩

/-- Month and year recovered from December 31st of any civil year. -/
theorem monthYearDec31 (y : ℤ) :
    monthOf (daysFromCivil y 12 31) = 12 ∧ yearOf (daysFromCivil y 12 31) = y := by
  exact ⟨(civilParts y 12 31 9 305 (by decide) (by decide) (by decide) (by decide)
      (by decide) (by decide) (yoeRecoverOf 305 (by decide))).1,
    (civilParts y 12 31 9 305 (by decide) (by decide) (by decide) (by decide)
      (by decide) (by decide) (yoeRecoverOf 305 (by decide))).2.1⟩

/-! ## Claim C5 — percentUsed -/

/-- C5: for every category, tracked amount and budget, the budget table's
`percentUsed` equals `abs(tracked)/budget*100` when `budget > 0` and is
exactly 0 when `budget = 0` (no division by zero is performed), and is
always nonnegative. -/
theorem percentUsed_spec (tracked budget : ℚ) :
    (0 < budget → percentUsed tracked budget = |tracked| / budget * 100) ∧
    (budget = 0 → percentUsed tracked budget = 0) ∧
    0 ≤ percentUsed tracked budget := by
  refine ⟨fun h => by rw [percentUsed, if_pos h], fun h => by simp [percentUsed, h], ?_⟩
  rw [percentUsed]
  split_ifs with h
  · positivity
  · exact le_refl 0

/-- Witness for C5 at the spec's worked scenario (`tracked = -50`,
`budget = 200` gives 25 %). -/
theorem percentUsed_spec_witness :
    percentUsed (-50) 200 = 25 ∧ 0 ≤ percentUsed (-50) 200 :=
  ⟨((percentUsed_spec (-50) 200).1 (by norm_num)).trans (by norm_num),
   (percentUsed_spec (-50) 200).2.2⟩

/-! ## Claim C6 — budget totals -/

/-- A `reduce`-style fold of added values equals the initial value plus the
sum of the mapped list. -/
theorem foldl_add_map (f : String → ℚ) (l : List String) (a : ℚ) :
    l.foldl (fun s c => s + f c) a = a + (l.map f).sum := by
  induction l generalizing a with
  | nil => simp
  | cons x xs ih => rw [List.foldl_cons, ih, List.map_cons, List.sum_cons]; ring

/-- C6: `totalTracked` and `totalBudget` are exactly the sums of the
looked-up values over the supplied category list (missing entries counting
as 0), `totalRemaining = totalBudget - |totalTracked|`, `overBudget` holds
iff `|totalTracked| > totalBudget`, and the totals only depend on the
mappings' values at the listed categories, so categories outside the list
never influence them. -/
theorem budgetTotals_spec (categories : List String)
    (categoryBudgets spendingByCategory : List (String × ℚ)) :
    totalTracked categories spendingByCategory
        = (categories.map (lookup0 spendingByCategory)).sum ∧
    totalBudget categories categoryBudgets
        = (categories.map (lookup0 categoryBudgets)).sum ∧
    totalRemaining categories categoryBudgets spendingByCategory
        = totalBudget categories categoryBudgets -
            |totalTracked categories spendingByCategory| ∧
    (overBudget categories categoryBudgets spendingByCategory = true ↔
      totalBudget categories categoryBudgets <
        |totalTracked categories spendingByCategory|) ∧
    (∀ s2, (∀ c ∈ categories, lookup0 spendingByCategory c = lookup0 s2 c) →
      totalTracked categories spendingByCategory = totalTracked categories s2) ∧
    (∀ b2, (∀ c ∈ categories, lookup0 categoryBudgets c = lookup0 b2 c) →
      totalBudget categories categoryBudgets = totalBudget categories b2) ∧
    (∀ m : List (String × ℚ), ∀ c, (∀ p ∈ m, ¬ p.1 = c) → lookup0 m c = 0) := by
  refine ⟨?_, ?_, rfl, ?_, ?_, ?_, ?_⟩
  · rw [totalTracked, foldl_add_map, zero_add]
  · rw [totalBudget, foldl_add_map, zero_add]
  · rw [overBudget]
    simp [lt_iff_lt_of_le_iff_le, decide_eq_true_eq]
  · intro s2 hs
    rw [totalTracked, totalTracked, foldl_add_map, foldl_add_map,
      List.map_congr_left hs]
  · intro b2 hb
    rw [totalBudget, totalBudget, foldl_add_map, foldl_add_map,
      List.map_congr_left hb]
  · intro m c hm
    rw [lookup0, List.find?_eq_none.mpr]
    · rfl
    · intro p hp
      simpa using hm p hp

/-- Witness for C6 at the spec's worked scenario: one category `Food` with
budget 200 and tracked −50 gives totals 200 / −50, remaining 150, and no
over-budget flag; an unlisted category never contributes. -/
theorem budgetTotals_spec_witness :
    totalTracked ["Food"] [("Food", -50)] = -50 ∧
    totalRemaining ["Food"] [("Food", 200)] [("Food", -50)] = 150 ∧
    totalTracked ["Food"] [("Food", -50)] =
      totalTracked ["Food"] [("Food", -50), ("Rent", 999)] ∧
    lookup0 [("Food", 200)] "Travel" = 0 := by
  refine ⟨?_, ?_, ?_, ?_⟩
  · exact ((budgetTotals_spec ["Food"] [("Food", 200)] [("Food", -50)]).1).trans
      (by simp [lookup0, List.find?])
  · refine ((budgetTotals_spec ["Food"] [("Food", 200)] [("Food", -50)]).2.2.1).trans ?_
    have h1 : totalBudget ["Food"] [("Food", 200)] = 200 :=
      ((budgetTotals_spec ["Food"] [("Food", 200)] [("Food", -50)]).2.1).trans
        (by simp [lookup0, List.find?])
    have h2 : totalTracked ["Food"] [("Food", -50)] = -50 :=
      ((budgetTotals_spec ["Food"] [("Food", 200)] [("Food", -50)]).1).trans
        (by simp [lookup0, List.find?])
    rw [h1, h2]
    norm_num
  · exact (budgetTotals_spec ["Food"] [("Food", 200)] [("Food", -50)]).2.2.2.2.1
      [("Food", -50), ("Rent", 999)] (by simp [lookup0, List.find?])
  · exact (budgetTotals_spec ["Food"] [("Food", 200)] [("Food", -50)]).2.2.2.2.2.2
      [("Food", 200)] "Travel" (by simp)

/-! ## Claim C10 — the render pass leaves the input unchanged -/

/-- C10: computing all three chart aggregations returns the caller's
transaction list unchanged — the date sort consumed a spread copy, whose
contents are a permutation of the input. -/
theorem runStatistics_frame (now : ℤ) (p : Period) (off : ℤ)
    (transactions : List Transaction) :
    (runStatistics now p off transactions).2 = transactions ∧
    List.Perm (sortedTransactions transactions) transactions :=
  ⟨rfl, List.perm_insertionSort _ _⟩

/-! ## Claim C7 — generateShades -/

/-- C7: `generateShades` returns exactly `count` values, each carrying the
RGB triple decoded from the hex input; shade `i` has alpha
`max(0.2, 1 - i*0.1)`, so the alpha sequence is non-increasing and never
below 0.2. -/
theorem generateShades_spec (hexColor : String) (count : ℕ) :
    (generateShades hexColor count).length = count ∧
    (∀ i : ℕ, (generateShades hexColor count)[i]? =
      if i < count then
        some ⟨shadeR hexColor, shadeG hexColor, shadeB hexColor,
          max (2/10 : ℚ) (1 - (i : ℚ) / 10)⟩
      else none) ∧
    (∀ i j : ℕ, i ≤ j → ∀ x y, (generateShades hexColor count)[i]? = some x →
      (generateShades hexColor count)[j]? = some y → y.a ≤ x.a) ∧
    (∀ s ∈ generateShades hexColor count, (2/10 : ℚ) ≤ s.a) := by
  have hget : ∀ i : ℕ, (generateShades hexColor count)[i]? =
      if i < count then
        some ⟨shadeR hexColor, shadeG hexColor, shadeB hexColor,
          max (2/10 : ℚ) (1 - (i : ℚ) / 10)⟩
      else none := by
    intro i
    by_cases h : i < count
    · rw [if_pos h, generateShades, List.getElem?_map, List.getElem?_range h]
      rfl
    · rw [if_neg h, List.getElem?_eq_none]
      rw [generateShades, List.length_map, List.length_range]
      omega
  refine ⟨by rw [generateShades, List.length_map, List.length_range], hget, ?_, ?_⟩
  · intro i j hij x y hx hy
    rw [hget i] at hx
    rw [hget j] at hy
    by_cases hi : i < count
    · by_cases hj : j < count
      · rw [if_pos hi] at hx
        rw [if_pos hj] at hy
        cases hx
        cases hy
        have hc : (i : ℚ) ≤ (j : ℚ) := by exact_mod_cast hij
        exact max_le_max le_rfl (by linarith)
      · rw [if_neg hj] at hy
        cases hy
    · rw [if_neg hi] at hx
      cases hx
  · intro s hs
    obtain ⟨i, _, rfl⟩ := List.mem_map.mp hs
    exact le_max_left _ _

/-- Witness for C7 at `generateShades("#EF4444", 3)`: three shades, the
third's alpha below the first's, and the decoded red channel is 239. -/
theorem generateShades_spec_witness :
    (generateShades "#EF4444" 3).length = 3 ∧
    (Shade.mk (shadeR "#EF4444") (shadeG "#EF4444") (shadeB "#EF4444")
        (max (2/10 : ℚ) (1 - ((2 : ℕ) : ℚ) / 10))).a ≤
      (Shade.mk (shadeR "#EF4444") (shadeG "#EF4444") (shadeB "#EF4444")
        (max (2/10 : ℚ) (1 - ((0 : ℕ) : ℚ) / 10))).a ∧
    shadeR "#EF4444" = some 239 := by
  refine ⟨(generateShades_spec "#EF4444" 3).1, ?_, ?_⟩
  · refine (generateShades_spec "#EF4444" 3).2.2.1 0 2 (by norm_num) _ _ ?_ ?_
    · rw [(generateShades_spec "#EF4444" 3).2.1 0]
      norm_num
    · rw [(generateShades_spec "#EF4444" 3).2.1 2]
      norm_num
  · decide

/-! ## Claim C8 — callOpenRouter error handling -/

/-- C8: with no configured API key the chat-completion call fails with the
configuration error without consulting the network oracle at all (the
result is the same for every oracle), and with a key present a non-ok HTTP
reply propagates as an error. -/
theorem callOpenRouter_spec (messages : List OpenRouterMessage) (options : CallOptions) :
    (∀ net, callOpenRouter none net messages options =
      Except.error "OpenRouter API key is not configured") ∧
    (∀ net net2, callOpenRouter none net messages options =
      callOpenRouter none net2 messages options) ∧
    (∀ (key : String) net, (net (mkPayload messages options)).ok = false →
      ∃ e, callOpenRouter (some key) net messages options = Except.error e) := by
  refine ⟨fun net => rfl, fun net net2 => rfl, ?_⟩
  intro key net h
  rw [callOpenRouter]
  by_cases hk : key = ""
  · rw [if_pos hk]
    exact ⟨_, rfl⟩
  · rw [if_neg hk]
    exact ⟨_, if_pos h⟩

/-- Witness for C8: a missing key errors for a concrete oracle, and a
concrete 500 reply errors with a key present. -/
theorem callOpenRouter_spec_witness :
    callOpenRouter none (fun _ => ⟨false, 500, "boom", none⟩) [] ⟨none, none, none, none⟩ =
      Except.error "OpenRouter API key is not configured" ∧
    (∃ e, callOpenRouter (some "k") (fun _ => ⟨false, 500, "boom", none⟩) []
      ⟨none, none, none, none⟩ = Except.error e) :=
  ⟨(callOpenRouter_spec [] ⟨none, none, none, none⟩).1 _,
   (callOpenRouter_spec [] ⟨none, none, none, none⟩).2.2 "k" _ rfl⟩

/-! ## Claim C9 — the processing flag is always cleared -/

/-- C9: each of the three AI handlers leaves `isProcessing` at `false`
whenever its guard lets it run — for every outcome of the AI call and of
the JSON parse — and leaves the flag untouched when the guard returns
early, so no path that sets the flag leaves it set. -/
theorem processingFlag_spec (transactions : List Transaction)
    (aiResult apiResult : Except String String)
    (jsonParse : String → Option ParsedStatement) (nowMs : ℕ)
    (apiKey : Option String) (net : OpenRouterRequest → HttpReply)
    (st : AiToolsState) :
    (handleAnalyzeTransactions transactions aiResult st).isProcessing =
      (if transactions.length = 0 then st.isProcessing else false) ∧
    (handleParseStatement apiResult jsonParse nowMs st).isProcessing =
      (if st.statementText.trim = "" then st.isProcessing else false) ∧
    (handleAskQuestion apiKey net transactions st).isProcessing =
      (if st.aiQuery.trim = "" then st.isProcessing else false) := by
  refine ⟨?_, ?_, ?_⟩
  · rw [handleAnalyzeTransactions]
    split_ifs with h
    · rfl
    · cases aiResult <;> rfl
  · rw [handleParseStatement]
    split_ifs with h <;> rfl
  · rw [handleAskQuestion]
    split_ifs with h <;> rfl

/-! ## Claim C2 — running-balance series -/

/-- Both running-balance series have one point per processed transaction. -/
theorem netAssetGo_len (w v : ℚ) (l : List Transaction) :
    (netAssetGo w v l).1.length = l.length ∧ (netAssetGo w v l).2.length = l.length := by
  induction l generalizing w v with
  | nil => exact ⟨rfl, rfl⟩
  | cons tx rest ih =>
    simp only [netAssetGo, List.length_cons]
    exact ⟨by rw [(ih _ _).1], by rw [(ih _ _).2]⟩

/-- Pointwise description of the two series: the `i`-th point carries the
`i`-th transaction's date and the accumulator value after it. -/
theorem netAssetGo_get (l : List Transaction) (w v : ℚ) (i : ℕ) :
    (netAssetGo w v l).1[i]? = (l[i]?).map (fun tx =>
      ⟨tx.date, w + ((l.take (i + 1)).map wealthStep).sum⟩) ∧
    (netAssetGo w v l).2[i]? = (l[i]?).map (fun tx =>
      ⟨tx.date, v + ((l.take (i + 1)).map investStep).sum⟩) := by
  induction l generalizing w v i with
  | nil => exact ⟨rfl, rfl⟩
  | cons tx rest ih =>
    have hgo1 : (netAssetGo w v (tx :: rest)).1 =
        ⟨tx.date, w + wealthStep tx⟩ ::
          (netAssetGo (w + wealthStep tx) (v + investStep tx) rest).1 := rfl
    have hgo2 : (netAssetGo w v (tx :: rest)).2 =
        ⟨tx.date, v + investStep tx⟩ ::
          (netAssetGo (w + wealthStep tx) (v + investStep tx) rest).2 := rfl
    cases i with
    | zero =>
      rw [hgo1, hgo2]
      constructor
      · simp
      · simp
    | succ i =>
      rw [hgo1, hgo2]
      simp only [List.getElem?_cons_succ]
      constructor
      · rw [(ih _ _ i).1]
        cases rest[i]? with
        | none => rfl
        | some a =>
          simp only [Option.map_some, List.take_succ_cons, List.map_cons, List.sum_cons,
            BalancePoint.mk.injEq, eq_self_iff_true, true_and]
          ring_nf
      · rw [(ih _ _ i).2]
        cases rest[i]? with
        | none => rfl
        | some a =>
          simp only [Option.map_some, List.take_succ_cons, List.map_cons, List.sum_cons,
            BalancePoint.mk.injEq, eq_self_iff_true, true_and]
          ring_nf

/-- C2: for every input transaction list, the `netAssetData` aggregation
over the date-sorted transactions yields a wealth and an investment series
of equal length with exactly one point per input transaction (whatever the
type mix), and the `i`-th point of each series carries the date of the
`i`-th sorted transaction together with the accumulator value after it —
unchanged balances are carried forward. -/
theorem netAssetData_spec (transactions : List Transaction) :
    (netAssetData (sortedTransactions transactions)).1.length = transactions.length ∧
    (netAssetData (sortedTransactions transactions)).2.length = transactions.length ∧
    (∀ i : ℕ, (netAssetData (sortedTransactions transactions)).1[i]? =
      ((sortedTransactions transactions)[i]?).map (fun tx =>
        ⟨tx.date, (((sortedTransactions transactions).take (i + 1)).map wealthStep).sum⟩)) ∧
    (∀ i : ℕ, (netAssetData (sortedTransactions transactions)).2[i]? =
      ((sortedTransactions transactions)[i]?).map (fun tx =>
        ⟨tx.date, (((sortedTransactions transactions).take (i + 1)).map investStep).sum⟩)) := by
  have hlen : (sortedTransactions transactions).length = transactions.length := by
    rw [sortedTransactions]
    exact (List.perm_insertionSort _ transactions).length_eq
  refine ⟨?_, ?_, ?_, ?_⟩
  · rw [netAssetData, (netAssetGo_len 0 0 _).1, hlen]
  · rw [netAssetData, (netAssetGo_len 0 0 _).2, hlen]
  · intro i
    rw [netAssetData, (netAssetGo_get _ 0 0 i).1]
    cases (sortedTransactions transactions)[i]? with
    | none => rfl
    | some a => simp
  · intro i
    rw [netAssetData, (netAssetGo_get _ 0 0 i).2]
    cases (sortedTransactions transactions)[i]? with
    | none => rfl
    | some a => simp

/-! ## Claim C1 — per-bucket category totals sum to the bucket total -/

/-- Bumping one category raises the stored category sum by exactly the
added amount. -/
theorem catSum_addCat (cats : List (String × ℚ)) (c : String) (a : ℚ) :
    catSum (addCat cats c a) = catSum cats + a := by
  induction cats with
  | nil => simp [addCat, catSum]
  | cons p ps ih =>
    rw [addCat]
    split_ifs with hp
    · rw [catSum, List.map_cons, List.sum_cons, catSum, List.map_cons, List.sum_cons]
      ring
    · simp only [catSum, List.map_cons, List.sum_cons] at ih ⊢
      rw [ih]
      ring

/-- The lookup-and-mutate loop body acts entrywise: it is the map that
bumps every entry whose name is the transaction's bucket label. -/
theorem applyTx_eq_map (m : List ChartEntry) (label c : String) (a : ℚ) :
    applyTx m label c a =
      m.map (fun x => if x.name = label then bumpEntry x c a else x) := by
  rw [applyTx]
  split_ifs with h
  · rfl
  · conv_lhs => rw [← List.map_id m]
    refine List.map_congr_left ?_
    intro x hx
    rw [if_neg, id]
    intro hxl
    exact h (List.any_eq_true.mpr ⟨x, hx, decide_eq_true hxl⟩)

/-- A fold of entrywise maps is the map of the per-entry folds. -/
theorem foldl_map_swap {α β : Type} (g : β → α → α) (l : List β) (m0 : List α) :
    l.foldl (fun m b => m.map (g b)) m0 =
      m0.map (fun e => l.foldl (fun e b => g b e) e) := by
  induction l generalizing m0 with
  | nil => simp
  | cons b bs ih =>
    rw [List.foldl_cons, ih, List.map_map]
    rfl

/-- Every entry of the seeded bucket map is a zero entry for its label. -/
theorem seedEntries_zero (labels : List String) :
    ∀ e ∈ seedEntries labels, e = zeroEntry e.name := by
  suffices h : ∀ m : List ChartEntry, (∀ e ∈ m, e = zeroEntry e.name) →
      ∀ e ∈ labels.foldl (fun m l => mapSet m (zeroEntry l)) m, e = zeroEntry e.name by
    exact h [] (by intro e he; cases he)
  induction labels with
  | nil => intro m hm; exact hm
  | cons l ls ih =>
    intro m hm
    rw [List.foldl_cons]
    refine ih _ ?_
    intro e he
    rw [mapSet] at he
    split_ifs at he with hs
    · obtain ⟨x, hx, hxe⟩ := List.mem_map.mp he
      by_cases hxl : x.name = (zeroEntry l).name
      · rw [if_pos hxl] at hxe
        rw [← hxe]
        rfl
      · rw [if_neg hxl] at hxe
        rw [← hxe]
        exact hm x hx
    · rcases List.mem_append.mp he with hin | hin
      · exact hm e hin
      · rw [List.mem_singleton.mp hin]
        rfl

/-- The per-entry fold over the relevant transactions preserves the
"categories sum to the total" invariant of a single bucket entry. -/
theorem entryFold_sum (txs : List Transaction) (p : Period) (e : ChartEntry)
    (he : catSum e.cats = e.total) :
    catSum ((txs.foldl (fun e tx =>
        if e.name = spendingFormatLabel p tx.date then
          bumpEntry e tx.category |tx.amount| else e) e).cats) =
      (txs.foldl (fun e tx =>
        if e.name = spendingFormatLabel p tx.date then
          bumpEntry e tx.category |tx.amount| else e) e).total := by
  induction txs generalizing e with
  | nil => exact he
  | cons tx rest ih =>
    rw [List.foldl_cons]
    refine ih _ ?_
    split_ifs with h
    · rw [bumpEntry]
      simp only
      rw [catSum_addCat, he]
    · exact he

/-- C1: in every bucket entry produced by the spending-analysis
aggregation — for every "now", period, offset and transaction list — the
sum of the per-category totals stored in the entry equals the entry's
`total` field (exact rational arithmetic). -/
theorem spendingChartData_sum (now : ℤ) (p : Period) (off : ℤ)
    (txs : List Transaction) :
    ∀ e ∈ spendingChartData now p off txs, catSum e.cats = e.total := by
  have hgen : ∀ (q : Period) (seeds : List ChartEntry),
      (∀ e ∈ seeds, catSum e.cats = e.total) →
      ∀ e ∈ (relevantTxs now q off txs).foldl
        (fun m tx => applyTx m (spendingFormatLabel q tx.date) tx.category |tx.amount|)
        seeds, catSum e.cats = e.total := by
    intro q seeds hseeds e he
    have hfun : (fun (m : List ChartEntry) (tx : Transaction) =>
          applyTx m (spendingFormatLabel q tx.date) tx.category |tx.amount|) =
        (fun m tx => m.map (fun x =>
          if x.name = spendingFormatLabel q tx.date then
            bumpEntry x tx.category |tx.amount| else x)) := by
      funext m tx
      exact applyTx_eq_map m (spendingFormatLabel q tx.date) tx.category |tx.amount|
    have hrw : (relevantTxs now q off txs).foldl
        (fun m tx => applyTx m (spendingFormatLabel q tx.date) tx.category |tx.amount|)
        seeds =
        seeds.map (fun e0 => (relevantTxs now q off txs).foldl (fun e0 tx =>
          if e0.name = spendingFormatLabel q tx.date then
            bumpEntry e0 tx.category |tx.amount| else e0) e0) := by
      rw [hfun, foldl_map_swap]
    rw [hrw] at he
    obtain ⟨e0, he0, rfl⟩ := List.mem_map.mp he
    exact entryFold_sum _ _ _ (hseeds e0 he0)
  intro e he
  cases p with
  | M => cases he
  | W =>
    exact hgen Period.W (seedEntries (bucketLabels now Period.W off))
      (fun e0 he0 => by rw [seedEntries_zero _ e0 he0]; rfl) e he
  | SixM =>
    exact hgen Period.SixM (seedEntries (bucketLabels now Period.SixM off))
      (fun e0 he0 => by rw [seedEntries_zero _ e0 he0]; rfl) e he
  | Y =>
    exact hgen Period.Y (seedEntries (bucketLabels now Period.Y off))
      (fun e0 he0 => by rw [seedEntries_zero _ e0 he0]; rfl) e he

/-- Witness for C1 at a concrete week (day 3 = 1970-01-04, a Sunday): the
"Sun" bucket of the empty-transaction week chart satisfies the sum
invariant. -/
theorem spendingChartData_sum_witness :
    zeroEntry "Sun" ∈ spendingChartData 3 Period.W 0 [] ∧
    catSum (zeroEntry "Sun").cats = (zeroEntry "Sun").total :=
  ⟨by decide, spendingChartData_sum 3 Period.W 0 [] (zeroEntry "Sun") (by decide)⟩

/-! ## Claim C4 — zero-seeded buckets -/

/-- For a period other than Month, the chart is the seed map with the
per-entry transaction fold applied entrywise. -/
theorem spendingChartData_eq_map (now : ℤ) (p : Period) (off : ℤ)
    (txs : List Transaction) (hp : ¬ p = Period.M) :
    spendingChartData now p off txs =
      (seedEntries (bucketLabels now p off)).map
        (entryFoldFn p (relevantTxs now p off txs)) := by
  have hfun : ∀ q : Period, (fun (m : List ChartEntry) (tx : Transaction) =>
        applyTx m (spendingFormatLabel q tx.date) tx.category |tx.amount|) =
      (fun m tx => m.map (fun x =>
        if x.name = spendingFormatLabel q tx.date then
          bumpEntry x tx.category |tx.amount| else x)) := by
    intro q
    funext m tx
    exact applyTx_eq_map m (spendingFormatLabel q tx.date) tx.category |tx.amount|
  cases p with
  | M => exact absurd rfl hp
  | W =>
    show (relevantTxs now Period.W off txs).foldl
      (fun m tx => applyTx m (spendingFormatLabel Period.W tx.date) tx.category |tx.amount|)
      (seedEntries (bucketLabels now Period.W off)) = _
    rw [hfun Period.W, foldl_map_swap]
    rfl
  | SixM =>
    show (relevantTxs now Period.SixM off txs).foldl
      (fun m tx => applyTx m (spendingFormatLabel Period.SixM tx.date) tx.category |tx.amount|)
      (seedEntries (bucketLabels now Period.SixM off)) = _
    rw [hfun Period.SixM, foldl_map_swap]
    rfl
  | Y =>
    show (relevantTxs now Period.Y off txs).foldl
      (fun m tx => applyTx m (spendingFormatLabel Period.Y tx.date) tx.category |tx.amount|)
      (seedEntries (bucketLabels now Period.Y off)) = _
    rw [hfun Period.Y, foldl_map_swap]
    rfl

/-- The per-entry fold never changes an entry's name. -/
theorem entryFoldFn_name (q : Period) (txs : List Transaction) (e : ChartEntry) :
    (entryFoldFn q txs e).name = e.name := by
  induction txs generalizing e with
  | nil => rfl
  | cons tx rest ih =>
    rw [entryFoldFn, List.foldl_cons, ← entryFoldFn]
    rw [ih]
    split_ifs with h
    · rfl
    · rfl

/-- An entry targeted by no transaction of the fold is left unchanged. -/
theorem entryFoldFn_skip (q : Period) (txs : List Transaction) (e : ChartEntry)
    (h : ∀ tx ∈ txs, ¬ e.name = spendingFormatLabel q tx.date) :
    entryFoldFn q txs e = e := by
  induction txs with
  | nil => rfl
  | cons tx rest ih =>
    rw [entryFoldFn, List.foldl_cons, if_neg (h tx (List.mem_cons_self tx rest)),
      ← entryFoldFn]
    exact ih (fun tx2 h2 => h tx2 (List.mem_cons_of_mem tx h2))

/-- `Map.set` always leaves an entry carrying the written key's name. -/
theorem mapSet_mem_name_self (m : List ChartEntry) (l : String) :
    ∃ e ∈ mapSet m (zeroEntry l), e.name = l := by
  rw [mapSet]
  split_ifs with hs
  · obtain ⟨x, hx, hxl⟩ := List.any_eq_true.mp hs
    exact ⟨zeroEntry l, List.mem_map.mpr
      ⟨x, hx, by rw [if_pos (of_decide_eq_true hxl)]⟩, rfl⟩
  · exact ⟨zeroEntry l, List.mem_append_right _ (List.mem_singleton.mpr rfl), rfl⟩

/-- `Map.set` preserves the presence of every key already in the map. -/
theorem mapSet_mem_name_preserved (m : List ChartEntry) (l2 l : String)
    (h : ∃ e ∈ m, e.name = l) :
    ∃ e ∈ mapSet m (zeroEntry l2), e.name = l := by
  obtain ⟨e, hem, hname⟩ := h
  rw [mapSet]
  split_ifs with hs
  · by_cases hez : e.name = (zeroEntry l2).name
    · refine ⟨zeroEntry l2, List.mem_map.mpr ⟨e, hem, by rw [if_pos hez]⟩, ?_⟩
      exact (hez.symm.trans hname :)
    · exact ⟨e, List.mem_map.mpr ⟨e, hem, by rw [if_neg hez]⟩, hname⟩
  · exact ⟨e, List.mem_append_left _ hem, hname⟩

/-- Seeding keeps every label already present and adds the seeded ones. -/
theorem seedFold_mem_name (labels : List String) (l : String) :
    ∀ m : List ChartEntry, (l ∈ labels ∨ ∃ e ∈ m, e.name = l) →
      ∃ e ∈ labels.foldl (fun m lb => mapSet m (zeroEntry lb)) m, e.name = l := by
  induction labels with
  | nil =>
    intro m h
    rcases h with h | h
    · exact absurd h (List.not_mem_nil l)
    · exact h
  | cons lb ls ih =>
    intro m h
    rw [List.foldl_cons]
    apply ih
    rcases h with h | h
    · rcases List.mem_cons.mp h with rfl | h2
      · exact Or.inr (mapSet_mem_name_self m l)
      · exact Or.inl h2
    · exact Or.inr (mapSet_mem_name_preserved m lb l h)

/-- Every bucket label owns an entry in the seeded map. -/
theorem seedEntries_mem_name (labels : List String) (l : String) (hl : l ∈ labels) :
    ∃ e ∈ seedEntries labels, e.name = l :=
  seedFold_mem_name labels l [] (Or.inl hl)

/-- Seeding pairwise-distinct fresh labels appends one zero entry each. -/
theorem seedFold_append (labels : List String) : ∀ m : List ChartEntry,
    labels.Nodup → (∀ lb ∈ labels, ∀ e ∈ m, ¬ e.name = lb) →
    labels.foldl (fun m lb => mapSet m (zeroEntry lb)) m = m ++ labels.map zeroEntry := by
  induction labels with
  | nil =>
    intro m _ _
    simp
  | cons lb ls ih =>
    intro m hnodup hdisj
    rw [List.foldl_cons]
    have hset : mapSet m (zeroEntry lb) = m ++ [zeroEntry lb] := by
      rw [mapSet, if_neg]
      intro hs
      obtain ⟨x, hx, hxl⟩ := List.any_eq_true.mp hs
      exact hdisj lb (List.mem_cons_self _ _) x hx (of_decide_eq_true hxl)
    rw [hset, ih (m ++ [zeroEntry lb]) (List.nodup_cons.mp hnodup).2]
    · rw [List.map_cons, List.append_assoc, List.singleton_append]
    · intro lb2 hlb2 e he
      rcases List.mem_append.mp he with hin | hin
      · exact hdisj lb2 (List.mem_cons_of_mem _ hlb2) e hin
      · rw [List.mem_singleton.mp hin]
        intro hname
        have heq : lb = lb2 := hname
        exact (List.nodup_cons.mp hnodup).1 (heq ▸ hlb2)

/-- The Sunday-anchored week always carries the seven weekday labels in
calendar order, whatever "now" and the navigation offset are. -/
theorem bucketLabels_week (now off : ℤ) :
    bucketLabels now Period.W off = dayNames := by
  have hw : weekday (startOfWeekD (addWeeksD now off)) = 0 := by
    rw [weekday, startOfWeekD, weekday]
    omega
  have key : ∀ k : ℕ, k < 7 →
      formatEEE (startOfWeekD (addWeeksD now off) + (k : ℤ)) = dayNames.getD k "???" := by
    intro k hk
    have hkz : (k : ℤ) < 7 := by exact_mod_cast hk
    have hwk : weekday (startOfWeekD (addWeeksD now off) + (k : ℤ)) = (k : ℤ) := by
      rw [weekday] at hw ⊢
      omega
    rw [formatEEE, hwk, Int.toNat_natCast]
  have hcount : (endOfWeekD (addWeeksD now off) - startOfWeekD (addWeeksD now off) + 1).toNat
      = 7 := by
    rw [endOfWeekD]
    omega
  show (eachDayOfInterval (startOfWeekD (addWeeksD now off))
      (endOfWeekD (addWeeksD now off))).map formatEEE = dayNames
  rw [eachDayOfInterval, hcount, List.map_map,
    show List.range 7 = [0, 1, 2, 3, 4, 5, 6] from rfl]
  simp only [List.map_cons, List.map_nil, Function.comp_apply]
  rw [key 0 (by norm_num), key 1 (by norm_num), key 2 (by norm_num),
    key 3 (by norm_num), key 4 (by norm_num), key 5 (by norm_num), key 6 (by norm_num)]
  rfl

/-- With no transactions, the Week chart is exactly the seven zeroed
weekday buckets. -/
theorem spendingChartData_week_empty (now off : ℤ) :
    spendingChartData now Period.W off [] = dayNames.map zeroEntry := by
  rw [spendingChartData_eq_map now Period.W off [] (by intro h; cases h),
    bucketLabels_week]
  rw [show seedEntries dayNames = [] ++ dayNames.map zeroEntry from
    seedFold_append dayNames [] (by decide) (by intro lb _ e he; cases he)]
  rw [List.nil_append]
  conv_rhs => rw [← List.map_id (dayNames.map zeroEntry)]
  refine List.map_congr_left ?_
  intro e _
  rfl

/-- C4: for every period other than Month and every offset, each bucket
label owns an entry of the chart; a bucket label hit by no relevant
transaction keeps empty category totals and a zero total (so empty buckets
still appear); in particular the Week chart on an empty transaction list
is exactly 7 all-zero entries. -/
theorem spendingChartData_seeded (now off : ℤ) :
    (∀ p, ¬ p = Period.M → ∀ (txs : List Transaction) (l : String),
      l ∈ bucketLabels now p off →
      ∃ e ∈ spendingChartData now p off txs, e.name = l ∧
        ((∀ tx ∈ relevantTxs now p off txs, ¬ spendingFormatLabel p tx.date = l) →
          e.cats = [] ∧ e.total = 0)) ∧
    ((spendingChartData now Period.W off []).length = 7 ∧
      ∀ e ∈ spendingChartData now Period.W off [], e.cats = [] ∧ e.total = 0) := by
  constructor
  · intro p hp txs l hl
    obtain ⟨e0, he0, hname⟩ := seedEntries_mem_name (bucketLabels now p off) l hl
    have hzero : e0 = zeroEntry l := by
      rw [seedEntries_zero _ e0 he0, hname]
    refine ⟨entryFoldFn p (relevantTxs now p off txs) e0, ?_, ?_, ?_⟩
    · rw [spendingChartData_eq_map now p off txs hp]
      exact List.mem_map.mpr ⟨e0, he0, rfl⟩
    · rw [entryFoldFn_name, hname]
    · intro hnone
      rw [entryFoldFn_skip p _ e0, hzero]
      · exact ⟨rfl, rfl⟩
      · intro tx htx hlab
        exact hnone tx htx (by rw [← hlab, hname])
  · constructor
    · rw [spendingChartData_week_empty, List.length_map]
      rfl
    · intro e he
      rw [spendingChartData_week_empty] at he
      obtain ⟨lb, _, rfl⟩ := List.mem_map.mp he
      exact ⟨rfl, rfl⟩

/-- Witness for C4 at day 3 (1970-01-04, a Sunday), offset 0: the "Sun"
label owns a zeroed entry of the empty-week chart, which has 7 entries. -/
theorem spendingChartData_seeded_witness :
    (∃ e ∈ spendingChartData 3 Period.W 0 [], e.name = "Sun" ∧
      (e.cats = [] ∧ e.total = 0)) ∧
    (spendingChartData 3 Period.W 0 []).length = 7 := by
  constructor
  · obtain ⟨e, hm, hn, hz⟩ := (spendingChartData_seeded 3 0).1 Period.W (by decide)
      [] "Sun" (by decide)
    exact ⟨e, hm, hn, hz (by decide)⟩
  · exact (spendingChartData_seeded 3 0).2.1

/-! ## Claim C3 — flow aggregation -/

/-- The flow loop body acts entrywise: it is the map that bumps every
entry whose name is the transaction's month name. -/
theorem applyFlowTx_eq_map (m : List FlowEntry) (tx : Transaction) :
    applyFlowTx m tx =
      m.map (fun x => if x.name = formatMMM tx.date then bumpFlow x tx else x) := by
  rw [applyFlowTx]
  split_ifs with h
  · rfl
  · conv_lhs => rw [← List.map_id m]
    refine List.map_congr_left ?_
    intro x hx
    rw [if_neg, id]
    intro hxl
    exact h (List.any_eq_true.mpr ⟨x, hx, decide_eq_true hxl⟩)

/-- The flow aggregation is the seeded map with the per-entry transaction
fold applied entrywise. -/
theorem flowOverTimeData_eq_map (now : ℤ) (txs : List Transaction) :
    flowOverTimeData now txs =
      (flowSeeds now).map (flowFoldFn (sortedTransactions txs)) := by
  rw [flowOverTimeData]
  have hfun : applyFlowTx = (fun (m : List FlowEntry) tx => m.map (fun x =>
      if x.name = formatMMM tx.date then bumpFlow x tx else x)) := by
    funext m tx
    exact applyFlowTx_eq_map m tx
  rw [hfun, foldl_map_swap]
  rfl

/-- Bumping a flow entry never changes its name. -/
theorem bumpFlow_name (e : FlowEntry) (tx : Transaction) :
    (bumpFlow e tx).name = e.name := by
  rw [bumpFlow]
  cases tx.type <;> rfl

/-- Seeding pairwise-distinct fresh month labels appends one zero entry
each (flow version). -/
theorem flowFold_append (labels : List String) : ∀ m : List FlowEntry,
    labels.Nodup → (∀ lb ∈ labels, ∀ e ∈ m, ¬ e.name = lb) →
    labels.foldl (fun m lb => flowSet m (zeroFlow lb)) m = m ++ labels.map zeroFlow := by
  induction labels with
  | nil =>
    intro m _ _
    simp
  | cons lb ls ih =>
    intro m hnodup hdisj
    rw [List.foldl_cons]
    have hset : flowSet m (zeroFlow lb) = m ++ [zeroFlow lb] := by
      rw [flowSet, if_neg]
      intro hs
      obtain ⟨x, hx, hxl⟩ := List.any_eq_true.mp hs
      exact hdisj lb (List.mem_cons_self _ _) x hx (of_decide_eq_true hxl)
    rw [hset, ih (m ++ [zeroFlow lb]) (List.nodup_cons.mp hnodup).2]
    · rw [List.map_cons, List.append_assoc, List.singleton_append]
    · intro lb2 hlb2 e he
      rcases List.mem_append.mp he with hin | hin
      · exact hdisj lb2 (List.mem_cons_of_mem _ hlb2) e hin
      · rw [List.mem_singleton.mp hin]
        intro hname
        have heq : lb = lb2 := hname
        exact (List.nodup_cons.mp hnodup).1 (heq ▸ hlb2)

/-- The months seeded for the current year are exactly the twelve month
starts of that year, in order. -/
theorem yearMonths_eq (now : ℤ) :
    eachMonthOfInterval (startOfYearD now) (endOfYearD now) =
      (List.range 12).map (fun (i : ℕ) => firstDayOfIdx (12 * yearOf now + (i : ℤ))) := by
  have h1 := monthYearFirst (yearOf now) 1 (by norm_num) (by norm_num)
  have h12 := monthYearDec31 (yearOf now)
  have hs : monthIdxOfDay (startOfYearD now) = 12 * yearOf now := by
    rw [startOfYearD, monthIdxOfDay, h1.1, h1.2]
    ring
  have he : monthIdxOfDay (endOfYearD now) = 12 * yearOf now + 11 := by
    rw [endOfYearD, monthIdxOfDay, h12.1, h12.2]
    ring
  rw [eachMonthOfInterval, hs, he]
  have hc : (12 * yearOf now + 11 - 12 * yearOf now + 1).toNat = 12 := by omega
  rw [hc]

/-- The seeded month labels are the twelve abbreviated month names. -/
theorem yearMonths_labels (now : ℤ) :
    (eachMonthOfInterval (startOfYearD now) (endOfYearD now)).map formatMMM =
      monthNames := by
  rw [yearMonths_eq, List.map_map]
  have key : ∀ i : ℕ, 1 ≤ i + 1 → i + 1 ≤ 12 →
      formatMMM (firstDayOfIdx (12 * yearOf now + (i : ℤ))) =
        monthNames.getD i "???" := by
    intro i h1 h12
    have hdiv : (12 * yearOf now + (i : ℤ)) / 12 = yearOf now := by omega
    have hmod : ((12 * yearOf now + (i : ℤ)) % 12).toNat = i := by omega
    rw [firstDayOfIdx, hdiv, hmod,
      formatMMM, (monthYearFirst (yearOf now) (i + 1) h1 h12).1]
    rfl
  rw [show List.range 12 = [0, 1, 2, 3, 4, 5, 6, 7, 8, 9, 10, 11] from rfl]
  simp only [List.map_cons, List.map_nil, Function.comp_apply]
  rw [key 0 (by norm_num) (by norm_num), key 1 (by norm_num) (by norm_num),
    key 2 (by norm_num) (by norm_num), key 3 (by norm_num) (by norm_num),
    key 4 (by norm_num) (by norm_num), key 5 (by norm_num) (by norm_num),
    key 6 (by norm_num) (by norm_num), key 7 (by norm_num) (by norm_num),
    key 8 (by norm_num) (by norm_num), key 9 (by norm_num) (by norm_num),
    key 10 (by norm_num) (by norm_num), key 11 (by norm_num) (by norm_num)]
  rfl

/-- The flow seed map is one zero entry per abbreviated month name. -/
theorem flowSeeds_eq (now : ℤ) :
    flowSeeds now = monthNames.map zeroFlow := by
  rw [flowSeeds, ← List.foldl_map (f := formatMMM)
    (g := fun m lb => flowSet m (zeroFlow lb)), yearMonths_labels]
  exact flowFold_append monthNames [] (by decide) (by intro lb _ e he; cases he)

/-- The civil month extracted from any epoch day lies in 1 – 12. -/
theorem monthOf_bounds (z : ℤ) : 1 ≤ monthOf z ∧ monthOf z ≤ 12 := by
  rw [monthOf, cmOfDoe, mpOfDoe, doyOfDoe, yoeOfDoe, doeOfDays]
  omega

/-- Every date's `'MMM'` name is one of the twelve seeded month names, so
every transaction has a seeded flow entry to land in. -/
theorem formatMMM_mem (z : ℤ) : formatMMM z ∈ monthNames := by
  obtain ⟨h1, h12⟩ := monthOf_bounds z
  rw [formatMMM]
  interval_cases h : monthOf z <;> decide

/-- `bumpFlow` on the income field. -/
theorem bumpFlow_income (e : FlowEntry) (tx : Transaction) :
    (bumpFlow e tx).income =
      e.income + (if tx.type = TxType.income then tx.amount else 0) := by
  cases h : tx.type <;> simp [bumpFlow, h]

/-- `bumpFlow` on the expense field. -/
theorem bumpFlow_expense (e : FlowEntry) (tx : Transaction) :
    (bumpFlow e tx).expense =
      e.expense + (if tx.type = TxType.expense then |tx.amount| else 0) := by
  cases h : tx.type <;> simp [bumpFlow, h]

/-- `bumpFlow` on the investment field. -/
theorem bumpFlow_investment (e : FlowEntry) (tx : Transaction) :
    (bumpFlow e tx).investment =
      e.investment + (if tx.type = TxType.investment then |tx.amount| else 0) := by
  cases h : tx.type <;> simp [bumpFlow, h]

/-- Head decomposition of the income contribution. -/
theorem incContrib_cons (tx : Transaction) (rest : List Transaction) (n : String) :
    incContrib (tx :: rest) n =
      (if formatMMM tx.date = n ∧ tx.type = TxType.income then tx.amount else 0) +
        incContrib rest n := by
  rw [incContrib, incContrib, List.filter_cons]
  by_cases h1 : formatMMM tx.date = n
  · by_cases h2 : tx.type = TxType.income
    · rw [if_pos (by simp [h1, h2]), if_pos ⟨h1, h2⟩, List.map_cons, List.sum_cons]
    · rw [if_neg (by simp [h2]), if_neg (fun hc => h2 hc.2)]
      exact (zero_add _).symm
  · rw [if_neg (by simp [h1]), if_neg (fun hc => h1 hc.1)]
    exact (zero_add _).symm

/-- Head decomposition of the expense contribution. -/
theorem expContrib_cons (tx : Transaction) (rest : List Transaction) (n : String) :
    expContrib (tx :: rest) n =
      (if formatMMM tx.date = n ∧ tx.type = TxType.expense then |tx.amount| else 0) +
        expContrib rest n := by
  rw [expContrib, expContrib, List.filter_cons]
  by_cases h1 : formatMMM tx.date = n
  · by_cases h2 : tx.type = TxType.expense
    · rw [if_pos (by simp [h1, h2]), if_pos ⟨h1, h2⟩, List.map_cons, List.sum_cons]
    · rw [if_neg (by simp [h2]), if_neg (fun hc => h2 hc.2)]
      exact (zero_add _).symm
  · rw [if_neg (by simp [h1]), if_neg (fun hc => h1 hc.1)]
    exact (zero_add _).symm

/-- Head decomposition of the investment contribution. -/
theorem invContrib_cons (tx : Transaction) (rest : List Transaction) (n : String) :
    invContrib (tx :: rest) n =
      (if formatMMM tx.date = n ∧ tx.type = TxType.investment then |tx.amount| else 0) +
        invContrib rest n := by
  rw [invContrib, invContrib, List.filter_cons]
  by_cases h1 : formatMMM tx.date = n
  · by_cases h2 : tx.type = TxType.investment
    · rw [if_pos (by simp [h1, h2]), if_pos ⟨h1, h2⟩, List.map_cons, List.sum_cons]
    · rw [if_neg (by simp [h2]), if_neg (fun hc => h2 hc.2)]
      exact (zero_add _).symm
  · rw [if_neg (by simp [h1]), if_neg (fun hc => h1 hc.1)]
    exact (zero_add _).symm

/-- Per-entry effect of the flow fold: the entry keeps its name, and each
field grows by exactly the matching transactions' contribution. -/
theorem flowFoldFn_fields (txs : List Transaction) : ∀ e : FlowEntry,
    (flowFoldFn txs e).name = e.name ∧
    (flowFoldFn txs e).income = e.income + incContrib txs e.name ∧
    (flowFoldFn txs e).expense = e.expense + expContrib txs e.name ∧
    (flowFoldFn txs e).investment = e.investment + invContrib txs e.name := by
  induction txs with
  | nil =>
    intro e
    exact ⟨rfl, (add_zero _).symm, (add_zero _).symm, (add_zero _).symm⟩
  | cons tx rest ih =>
    intro e
    have hstep : flowFoldFn (tx :: rest) e =
        flowFoldFn rest (if e.name = formatMMM tx.date then bumpFlow e tx else e) := rfl
    by_cases hn : e.name = formatMMM tx.date
    · obtain ⟨ihn, ihi, ihe, ihv⟩ := ih (bumpFlow e tx)
      rw [hstep, if_pos hn]
      refine ⟨by rw [ihn, bumpFlow_name], ?_, ?_, ?_⟩
      · rw [ihi, bumpFlow_name, bumpFlow_income, incContrib_cons]
        by_cases ht : tx.type = TxType.income
        · rw [if_pos ht, if_pos ⟨hn.symm, ht⟩]
          ring
        · rw [if_neg ht, if_neg (fun hc => ht hc.2)]
          ring
      · rw [ihe, bumpFlow_name, bumpFlow_expense, expContrib_cons]
        by_cases ht : tx.type = TxType.expense
        · rw [if_pos ht, if_pos ⟨hn.symm, ht⟩]
          ring
        · rw [if_neg ht, if_neg (fun hc => ht hc.2)]
          ring
      · rw [ihv, bumpFlow_name, bumpFlow_investment, invContrib_cons]
        by_cases ht : tx.type = TxType.investment
        · rw [if_pos ht, if_pos ⟨hn.symm, ht⟩]
          ring
        · rw [if_neg ht, if_neg (fun hc => ht hc.2)]
          ring
    · obtain ⟨ihn, ihi, ihe, ihv⟩ := ih e
      rw [hstep, if_neg hn]
      refine ⟨ihn, ?_, ?_, ?_⟩
      · rw [ihi, incContrib_cons, if_neg (fun hc => hn hc.1.symm)]
        ring
      · rw [ihe, expContrib_cons, if_neg (fun hc => hn hc.1.symm)]
        ring
      · rw [ihv, invContrib_cons, if_neg (fun hc => hn hc.1.symm)]
        ring

/-- Sorting the transactions first does not change any contribution. -/
theorem contrib_sorted (txs : List Transaction) (n : String) :
    incContrib (sortedTransactions txs) n = incContrib txs n ∧
    expContrib (sortedTransactions txs) n = expContrib txs n ∧
    invContrib (sortedTransactions txs) n = invContrib txs n := by
  have hperm : List.Perm (sortedTransactions txs) txs := by
    rw [sortedTransactions]
    exact List.perm_insertionSort _ txs
  exact ⟨((hperm.filter _).map _).sum_eq, ((hperm.filter _).map _).sum_eq,
    ((hperm.filter _).map _).sum_eq⟩

/-- C3 (amended): for every "now" and transaction list, the flow view
pre-seeds exactly 12 monthly entries named by the month abbreviations of
the current year; every transaction's month name is among them, and each
entry's `income`, `expense` and `investment` fields equal the sums of the
matching transactions' contributions (raw amount for income, absolute
value for expense and investment) — month names collapse across years, so
transactions dated outside the current calendar year are NOT excluded. -/
theorem flowOverTimeData_spec (now : ℤ) (txs : List Transaction) :
    (flowOverTimeData now txs).map (fun e => e.name) = monthNames ∧
    (flowOverTimeData now txs).length = 12 ∧
    (∀ tx ∈ txs, formatMMM tx.date ∈ monthNames) ∧
    ∀ e ∈ flowOverTimeData now txs,
      e.income = incContrib txs e.name ∧
      e.expense = expContrib txs e.name ∧
      e.investment = invContrib txs e.name := by
  have hmap := flowOverTimeData_eq_map now txs
  refine ⟨?_, ?_, fun tx _ => formatMMM_mem tx.date, ?_⟩
  · rw [hmap, flowSeeds_eq, List.map_map, List.map_map]
    conv_rhs => rw [← List.map_id monthNames]
    refine List.map_congr_left ?_
    intro lb _
    show (flowFoldFn (sortedTransactions txs) (zeroFlow lb)).name = lb
    rw [(flowFoldFn_fields (sortedTransactions txs) (zeroFlow lb)).1]
    rfl
  · rw [hmap, flowSeeds_eq, List.length_map, List.length_map]
    rfl
  · intro e he
    rw [hmap, flowSeeds_eq] at he
    obtain ⟨x, hx, rfl⟩ := List.mem_map.mp he
    obtain ⟨lb, _, rfl⟩ := List.mem_map.mp hx
    obtain ⟨hn, hi, hex, hv⟩ := flowFoldFn_fields (sortedTransactions txs) (zeroFlow lb)
    refine ⟨?_, ?_, ?_⟩
    · rw [hi, hn, show (zeroFlow lb).income = 0 from rfl, zero_add,
        (contrib_sorted txs _).1]
    · rw [hex, hn, show (zeroFlow lb).expense = 0 from rfl, zero_add,
        (contrib_sorted txs _).2.1]
    · rw [hv, hn, show (zeroFlow lb).investment = 0 from rfl, zero_add,
        (contrib_sorted txs _).2.2]

/-- Counterexample to C3 as stated: with "now" on 2026-01-15 (epoch day
20468), a single income transaction dated 2019-05-10 (epoch day 18026) —
outside the current calendar year — still lands in the "May" entry with
income 100, because `flowOverTimeData` keys only by month name and never
filters by year. -/
theorem flowOverTimeData_year_cex :
    yearOf 18026 = 2019 ∧ yearOf 20468 = 2026 ∧
    ∃ e ∈ flowOverTimeData 20468
        [⟨"t1", 18026, 100, "Salary", TxType.income, none⟩],
      e.name = "May" ∧ e.income = 100 := by
  refine ⟨by decide, by decide, ?_⟩
  have hmap := flowOverTimeData_eq_map 20468
    [⟨"t1", 18026, 100, "Salary", TxType.income, none⟩]
  rw [hmap, flowSeeds_eq]
  refine ⟨flowFoldFn (sortedTransactions
      [⟨"t1", 18026, 100, "Salary", TxType.income, none⟩]) (zeroFlow "May"),
    List.mem_map.mpr ⟨zeroFlow "May",
      List.mem_map.mpr ⟨"May", by decide, rfl⟩, rfl⟩, ?_, ?_⟩
  · rw [(flowFoldFn_fields _ (zeroFlow "May")).1]
    rfl
  · rw [(flowFoldFn_fields _ (zeroFlow "May")).2.1,
      show (zeroFlow "May").income = 0 from rfl, zero_add,
      show (zeroFlow "May").name = "May" from rfl, (contrib_sorted _ "May").1]
    have hfm : formatMMM 18026 = "May" := by decide
    simp [incContrib, hfm, List.filter]

/-- Witness for C3 (amended) at a concrete instant: the January-2026 flow
view over an empty transaction list seeds the 12 month names. -/
theorem flowOverTimeData_spec_witness :
    (flowOverTimeData 20468 ([] : List Transaction)).length = 12 ∧
    (∃ e ∈ flowOverTimeData 20468 ([] : List Transaction),
      e.income = incContrib ([] : List Transaction) e.name) := by
  have h := flowOverTimeData_spec 20468 ([] : List Transaction)
  refine ⟨h.2.1, ?_⟩
  have hmem : "Jan" ∈ (flowOverTimeData 20468 ([] : List Transaction)).map
      (fun e => e.name) := by
    rw [h.1]
    decide
  obtain ⟨e, he, _⟩ := List.mem_map.mp hmem
  exact ⟨e, he, (h.2.2.2 e he).1⟩
